import Mathlib

/-!
A shallow embedding of the chess engine (`engine.py`) and its search module
(`movefinder.py`).  Boards are 8×8 lists of two-character cell strings
("wP", "bK", "--"), coordinates are integers (Python `int`), and each
mutating method becomes a function that returns the updated `GameState`.
List indexing follows Python semantics: a negative index wraps from the
end; an index that Python would reject raises there and yields the stated
default here (no claim evaluates such an access).
-/

namespace Chess

/-- Cell contents are the two-character strings of the source; this reads
character `i` of a string (all cells are ASCII, so list position equals
Python's string index). -/
def charAt (s : String) (i : Nat) : Char :=
  s.data.getD i ' '

/-- Python list read `l[i]`: negative indices wrap once from the end;
out-of-range reads raise in Python and return `d` here. -/
def pyGet {α : Type} (l : List α) (d : α) (i : Int) : α :=
  let j : Int := if i < 0 then (l.length : Int) + i else i
  if j < 0 then d else l.getD j.toNat d

/-- Python list write `l[i] = a` under the same index convention;
out-of-range writes leave the list unchanged (Python would raise). -/
def pySet {α : Type} (l : List α) (i : Int) (a : α) : List α :=
  let j : Int := if i < 0 then (l.length : Int) + i else i
  if j < 0 then l else l.set j.toNat a

/-- The board type of `GameState.board`. -/
abbrev Board : Type := List (List String)

/-- `self.board[r][c]`. -/
def getSq (b : Board) (r c : Int) : String :=
  pyGet (pyGet b [] r) "--" c

/-- `self.board[r][c] = v`. -/
def setSq (b : Board) (r c : Int) (v : String) : Board :=
  pySet b r (pySet (pyGet b [] r) c v)

/-- `CastleRights` (engine.py): the four castling-permission booleans. -/
structure CastleRights where
  wks : Bool
  bks : Bool
  wqs : Bool
  bqs : Bool
deriving DecidableEq, Repr

/-- `Move` (engine.py): all fields `Move.__init__` stores. -/
structure Move where
  start_row : Int
  start_col : Int
  end_row : Int
  end_col : Int
  piece_moved : String
  piece_captured : String
  is_en_passant_move : Bool
  castle : Bool
  is_pawn_promotion : Bool
  moveID : Int
deriving DecidableEq, Repr

/-- `Move.__init__(startSq, endSq, board, enPassant, castle)`: the piece
snapshots are read from the board at construction time, the promotion flag
is derived from them, and `moveID` packs the four coordinates. -/
def mkMove (startSq endSq : Int × Int) (board : Board) (enPassant castle : Bool) :
    Move :=
  let piece_moved := getSq board startSq.1 startSq.2
  let piece_captured := getSq board endSq.1 endSq.2
  { start_row := startSq.1
    start_col := startSq.2
    end_row := endSq.1
    end_col := endSq.2
    piece_moved := piece_moved
    piece_captured := piece_captured
    is_en_passant_move := enPassant
    castle := castle
    is_pawn_promotion :=
      (piece_moved = "wP" ∧ endSq.1 = 0) ∨ (piece_moved = "bP" ∧ endSq.1 = 7)
    moveID := startSq.1 * 1000 + startSq.2 * 100 + endSq.1 * 10 + endSq.2 }

/-- `Move.__eq__`: equality is decided by `moveID` alone (both arguments
here are `Move`s, so the `isinstance` guard of the source is satisfied). -/
def moveEq (a b : Move) : Bool :=
  a.moveID == b.moveID

/-- A pin or check record `(end_row, end_col, d0, d1)`. -/
abbrev PinEntry : Type := Int × Int × Int × Int

/-- `GameState` (engine.py): every attribute `__init__` creates, plus
`is_in_check`, which `get_valid_moves` assigns on first call (modelled as
initially `false`). -/
structure GameState where
  board : Board
  white_to_move : Bool
  move_log : List Move
  white_king_location : Int × Int
  black_king_location : Int × Int
  checkmate : Bool
  stalemate : Bool
  pins : List PinEntry
  checks : List PinEntry
  is_in_check : Bool
  en_passant_possible : Option (Int × Int)
  current_castling_rights : CastleRights
  castle_rights_log : List CastleRights
deriving Repr

/-- The starting board of `GameState.__init__`. -/
def initial_board : Board :=
  [["bR", "bN", "bB", "bQ", "bK", "bB", "bN", "bR"],
   ["bP", "bP", "bP", "bP", "bP", "bP", "bP", "bP"],
   ["--", "--", "--", "--", "--", "--", "--", "--"],
   ["--", "--", "--", "--", "--", "--", "--", "--"],
   ["--", "--", "--", "--", "--", "--", "--", "--"],
   ["--", "--", "--", "--", "--", "--", "--", "--"],
   ["wP", "wP", "wP", "wP", "wP", "wP", "wP", "wP"],
   ["wR", "wN", "wB", "wQ", "wK", "wB", "wN", "wR"]]

/-- `GameState.__init__`. -/
def initialGameState : GameState :=
  { board := initial_board
    white_to_move := true
    move_log := []
    white_king_location := (7, 4)
    black_king_location := (0, 4)
    checkmate := false
    stalemate := false
    pins := []
    checks := []
    is_in_check := false
    en_passant_possible := none
    current_castling_rights := ⟨true, true, true, true⟩
    castle_rights_log := [⟨true, true, true, true⟩] }

/-- The five board-reading fields the move generators consult; bundling
them mirrors the `self` reads of the generator methods. -/
structure Ctx where
  board : Board
  white_to_move : Bool
  white_king_location : Int × Int
  black_king_location : Int × Int
  en_passant_possible : Option (Int × Int)

/-- The generator-relevant projection of a state. -/
def ctxOf (s : GameState) : Ctx :=
  { board := s.board
    white_to_move := s.white_to_move
    white_king_location := s.white_king_location
    black_king_location := s.black_king_location
    en_passant_possible := s.en_passant_possible }

/-- The eight ray directions of `check_for_pins_and_checks` (orthogonals
first, then diagonals), in source order. -/
def directions8 : List (Int × Int) :=
  [(-1, 0), (0, -1), (1, 0), (0, 1), (-1, -1), (-1, 1), (1, -1), (1, 1)]

/-- The eight knight offsets, in source order. -/
def knight_offsets : List (Int × Int) :=
  [(-2, -1), (-2, 1), (-1, -2), (-1, 2), (1, -2), (1, 2), (2, -1), (2, 1)]

/-- Outcome of scanning one ray in `check_for_pins_and_checks`. -/
inductive RayRes where
  | nothing : RayRes
  | chk (c : PinEntry) : RayRes
  | pinned (p : PinEntry) : RayRes
deriving DecidableEq, Repr

/-- The inner `for i in range(1, 8)` loop of `check_for_pins_and_checks`
for direction index `j`, walking the remaining step counts `is` with the
current candidate pin. -/
def scanRay (board : Board) (enemy ally : Char) (sr sc : Int) (j : Nat)
    (d : Int × Int) : List Int → Option PinEntry → RayRes
  | [], _ => RayRes.nothing
  | i :: rest, possible_pin =>
    let er := sr + d.1 * i
    let ec := sc + d.2 * i
    if 0 ≤ er ∧ er < 8 ∧ 0 ≤ ec ∧ ec < 8 then
      let ep := getSq board er ec
      if charAt ep 0 = ally ∧ charAt ep 1 ≠ 'K' then
        match possible_pin with
        | none => scanRay board enemy ally sr sc j d rest (some (er, ec, d.1, d.2))
        | some _ => RayRes.nothing
      else if charAt ep 0 = enemy then
        let t := charAt ep 1
        if (j ≤ 3 ∧ t = 'R') ∨ (4 ≤ j ∧ j ≤ 7 ∧ t = 'B') ∨
            (i = 1 ∧ t = 'P' ∧
              ((enemy = 'w' ∧ 6 ≤ j ∧ j ≤ 7) ∨ (enemy = 'b' ∧ 4 ≤ j ∧ j ≤ 5))) ∨
            t = 'Q' ∨ (i = 1 ∧ t = 'K') then
          match possible_pin with
          | none => RayRes.chk (er, ec, d.1, d.2)
          | some p => RayRes.pinned p
        else RayRes.nothing
      else scanRay board enemy ally sr sc j d rest possible_pin
    else RayRes.nothing

/-- The step counts 1..7 of the ray loops. -/
def oneTo7 : List Int := [1, 2, 3, 4, 5, 6, 7]

/-- `GameState.check_for_pins_and_checks`: returns
`(in_check, pins, checks)` for the side to move. -/
def check_for_pins_and_checks (ctx : Ctx) : Bool × List PinEntry × List PinEntry :=
  let enemy := if ctx.white_to_move then 'b' else 'w'
  let ally := if ctx.white_to_move then 'w' else 'b'
  let sr := if ctx.white_to_move then ctx.white_king_location.1
            else ctx.black_king_location.1
  let sc := if ctx.white_to_move then ctx.white_king_location.2
            else ctx.black_king_location.2
  let rays := directions8.enum.foldl
    (fun (acc : Bool × List PinEntry × List PinEntry) jd =>
      match scanRay ctx.board enemy ally sr sc jd.1 jd.2 oneTo7 none with
      | RayRes.nothing => acc
      | RayRes.chk c => (true, acc.2.1, acc.2.2 ++ [c])
      | RayRes.pinned p => (acc.1, acc.2.1 ++ [p], acc.2.2))
    (false, [], [])
  knight_offsets.foldl
    (fun (acc : Bool × List PinEntry × List PinEntry) m =>
      let er := sr + m.1
      let ec := sc + m.2
      if 0 ≤ er ∧ er < 8 ∧ 0 ≤ ec ∧ ec < 8 then
        let ep := getSq ctx.board er ec
        if charAt ep 0 = enemy ∧ charAt ep 1 = 'N' then
          (true, acc.2.1, acc.2.2 ++ [(er, ec, m.1, m.2)])
        else acc
      else acc)
    rays

/-- The shared pin-lookup prologue of the pawn/rook/bishop generators:
walk `self.pins` from the end, stop at the first entry for `(row, col)`,
record its direction, and remove it unless the piece is a queen.  Returns
`(piece_pinned, pin_direction, remaining pins)`. -/
def pinScan (board : Board) (pins : List PinEntry) (row col : Int) :
    Bool × Option (Int × Int) × List PinEntry :=
  match pins.enum.reverse.find? (fun ip => ip.2.1 = row ∧ ip.2.2.1 = col) with
  | none => (false, none, pins)
  | some ip =>
    (true, some (ip.2.2.2.1, ip.2.2.2.2),
      if charAt (getSq board row col) 1 ≠ 'Q' then pins.erase ip.2 else pins)

/-- The knight generator's pin lookup: no direction, unconditional
removal. -/
def pinScanKnight (pins : List PinEntry) (row col : Int) :
    Bool × List PinEntry :=
  match pins.enum.reverse.find? (fun ip => ip.2.1 = row ∧ ip.2.2.1 = col) with
  | none => (false, pins)
  | some ip => (true, pins.erase ip.2)

/-- `GameState.get_pawn_moves`. -/
def get_pawn_moves (ctx : Ctx) (pins : List PinEntry) (row col : Int)
    (moves : List Move) : List PinEntry × List Move :=
  let ps := pinScan ctx.board pins row col
  let piece_pinned := ps.1
  let pin_direction := ps.2.1
  let move_amount : Int := if ctx.white_to_move then -1 else 1
  let start_row : Int := if ctx.white_to_move then 6 else 1
  let back_row : Int := if ctx.white_to_move then 0 else 7
  let enemy_color : Char := if ctx.white_to_move then 'b' else 'w'
  -- Forward moves.  The third positional argument of `Move(...)` here is
  -- the constructor's `enPassant` parameter: the source passes
  -- `pawnPromotion` in that slot, and that is reproduced faithfully.
  let fwd :=
    if getSq ctx.board (row + move_amount) col = "--" then
      if ¬piece_pinned ∨ pin_direction = some (move_amount, 0) then
        let pp1 := row + move_amount = back_row
        let ms1 := moves ++ [mkMove (row, col) (row + move_amount, col) ctx.board pp1 false]
        let ms2 :=
          if row = start_row ∧ getSq ctx.board (row + 2 * move_amount) col = "--" then
            ms1 ++ [mkMove (row, col) (row + 2 * move_amount, col) ctx.board false false]
          else ms1
        ((pp1 : Bool), ms2)
      else (false, moves)
    else (false, moves)
  let capl :=
    if col - 1 ≥ 0 then
      if ¬piece_pinned ∨ pin_direction = some (move_amount, -1) then
        if charAt (getSq ctx.board (row + move_amount) (col - 1)) 0 = enemy_color then
          let pp2 : Bool := if row + move_amount = back_row then true else fwd.1
          (pp2, fwd.2 ++ [mkMove (row, col) (row + move_amount, col - 1) ctx.board pp2 false])
        else fwd
      else fwd
    else fwd
  let capr :=
    if col + 1 ≤ 7 then
      if ¬piece_pinned ∨ pin_direction = some (move_amount, 1) then
        if charAt (getSq ctx.board (row + move_amount) (col + 1)) 0 = enemy_color then
          let pp3 : Bool := if row + move_amount = back_row then true else capl.1
          (pp3, capl.2 ++ [mkMove (row, col) (row + move_amount, col + 1) ctx.board pp3 false])
        else capl
      else capl
    else capl
  let ms :=
    match ctx.en_passant_possible with
    | none => capr.2
    | some epc =>
      if ctx.white_to_move then
        if row = 3 ∧ (epc.2 = col - 1 ∨ epc.2 = col + 1) then
          capr.2 ++ [mkMove (row, col) (row - 1, epc.2) ctx.board true false]
        else capr.2
      else
        if row = 4 ∧ (epc.2 = col - 1 ∨ epc.2 = col + 1) then
          capr.2 ++ [mkMove (row, col) (row + 1, epc.2) ctx.board true false]
        else capr.2
  (ps.2.2, ms)

/-- One sliding-piece ray (the inner `for i in range(1, 8)` loop shared by
`get_rook_moves` and `get_bishop_moves`): a failed pin test skips the step
but keeps walking; an occupied square ends the ray. -/
def slideRay (board : Board) (piece_pinned : Bool)
    (pin_direction : Option (Int × Int)) (enemy_color : Char) (row col : Int)
    (d : Int × Int) : List Int → List Move → List Move
  | [], ms => ms
  | i :: rest, ms =>
    let er := row + d.1 * i
    let ec := col + d.2 * i
    if 0 ≤ er ∧ er < 8 ∧ 0 ≤ ec ∧ ec < 8 then
      if ¬piece_pinned ∨ pin_direction = some d ∨
          pin_direction = some (-d.1, -d.2) then
        let ep := getSq board er ec
        if ep = "--" then
          slideRay board piece_pinned pin_direction enemy_color row col d rest
            (ms ++ [mkMove (row, col) (er, ec) board false false])
        else if charAt ep 0 = enemy_color then
          ms ++ [mkMove (row, col) (er, ec) board false false]
        else ms
      else
        slideRay board piece_pinned pin_direction enemy_color row col d rest ms
    else ms

/-- The rook's four directions, in source order. -/
def rook_directions : List (Int × Int) := [(-1, 0), (0, -1), (1, 0), (0, 1)]

/-- The bishop's four directions, in source order. -/
def bishop_directions : List (Int × Int) := [(-1, -1), (-1, 1), (1, -1), (1, 1)]

/-- `GameState.get_rook_moves`. -/
def get_rook_moves (ctx : Ctx) (pins : List PinEntry) (row col : Int)
    (moves : List Move) : List PinEntry × List Move :=
  let ps := pinScan ctx.board pins row col
  let enemy_color : Char := if ctx.white_to_move then 'b' else 'w'
  (ps.2.2, rook_directions.foldl
    (fun ms d => slideRay ctx.board ps.1 ps.2.1 enemy_color row col d oneTo7 ms)
    moves)

/-- `GameState.get_bishop_moves`. -/
def get_bishop_moves (ctx : Ctx) (pins : List PinEntry) (row col : Int)
    (moves : List Move) : List PinEntry × List Move :=
  let ps := pinScan ctx.board pins row col
  let enemy_color : Char := if ctx.white_to_move then 'b' else 'w'
  (ps.2.2, bishop_directions.foldl
    (fun ms d => slideRay ctx.board ps.1 ps.2.1 enemy_color row col d oneTo7 ms)
    moves)

/-- `GameState.get_knight_moves`. -/
def get_knight_moves (ctx : Ctx) (pins : List PinEntry) (row col : Int)
    (moves : List Move) : List PinEntry × List Move :=
  let ps := pinScanKnight pins row col
  let ally_colour : Char := if ctx.white_to_move then 'w' else 'b'
  (ps.2, knight_offsets.foldl
    (fun ms m =>
      let er := row + m.1
      let ec := col + m.2
      if 0 ≤ er ∧ er < 8 ∧ 0 ≤ ec ∧ ec < 8 then
        if ¬ps.1 then
          if charAt (getSq ctx.board er ec) 0 ≠ ally_colour then
            ms ++ [mkMove (row, col) (er, ec) ctx.board false false]
          else ms
        else ms
      else ms)
    moves)

/-- `GameState.get_queen_moves`: rook moves then bishop moves, threading
the pin list through both lookups. -/
def get_queen_moves (ctx : Ctx) (pins : List PinEntry) (row col : Int)
    (moves : List Move) : List PinEntry × List Move :=
  let r := get_rook_moves ctx pins row col moves
  get_bishop_moves ctx r.1 row col r.2

/-- The king's eight offsets (`row_moves` zipped with `col_moves`). -/
def king_offsets : List (Int × Int) :=
  [(-1, -1), (-1, 0), (-1, 1), (0, -1), (0, 1), (1, -1), (1, 0), (1, 1)]

/-- The candidate loop of `GameState.get_king_moves`: for each examined
candidate (on board and not ally-occupied) the cached king location is
set to the candidate, the analyzer is re-run, and the location is then
assigned the `(row, col)` *arguments* — a real write to `self`, which
rewrites a stale cache to the scanned board square.  The generation's
only writes to `self` besides `self.pins` are these two location cells
(and the turn flips of `square_under_attack`, each undone in place), so
the mutable residue is threaded as the pair `(wk, bk)` of current cache
values, and the current view of `self` is rebuilt from `ctx` and that
pair wherever the source reads it. -/
def kingMoveLoop (ctx : Ctx) (ally_colour : Char) (row col : Int) :
    List (Int × Int) → Int × Int → Int × Int → List Move →
    (Int × Int) × (Int × Int) × List Move
  | [], wk, bk, ms => (wk, bk, ms)
  | o :: rest, wk, bk, ms =>
    let er := row + o.1
    let ec := col + o.2
    if 0 ≤ er ∧ er < 8 ∧ 0 ≤ ec ∧ ec < 8 then
      if charAt (getSq ctx.board er ec) 0 ≠ ally_colour then
        let ctxT :=
          if ally_colour = 'w' then
            { ctx with white_king_location := (er, ec), black_king_location := bk }
          else
            { ctx with white_king_location := wk, black_king_location := (er, ec) }
        let ms' :=
          if ¬(check_for_pins_and_checks ctxT).1 then
            ms ++ [mkMove (row, col) (er, ec) ctx.board false false]
          else ms
        if ally_colour = 'w' then
          kingMoveLoop ctx ally_colour row col rest (row, col) bk ms'
        else
          kingMoveLoop ctx ally_colour row col rest wk (row, col) ms'
      else kingMoveLoop ctx ally_colour row col rest wk bk ms
    else kingMoveLoop ctx ally_colour row col rest wk bk ms

/-- `GameState.get_king_moves`: returns the king-cache cells (possibly
rewritten to `(row, col)`) together with the extended move list. -/
def get_king_moves (ctx : Ctx) (row col : Int) (moves : List Move) :
    (Int × Int) × (Int × Int) × List Move :=
  let ally_colour : Char := if ctx.white_to_move then 'w' else 'b'
  kingMoveLoop ctx ally_colour row col king_offsets
    ctx.white_king_location ctx.black_king_location moves

/-- The row-major scan order of `get_all_possible_moves`. -/
def squares64 : List (Int × Int) :=
  ((List.range 8).map Int.ofNat).flatMap
    (fun r => ((List.range 8).map Int.ofNat).map (fun c => (r, c)))

/-- The scan loop of `GameState.get_all_possible_moves`, dispatching on
the piece letter through `self.move_functions`.  The pawn/sliding/knight
generators write only `self.pins`; the king generator also writes the
cached king location, so the cache pair is threaded and the current view
of `self` is rebuilt for each dispatch. -/
def allMovesLoop :
    List (Int × Int) → Ctx → Int × Int → Int × Int → List PinEntry →
    List Move → (Int × Int) × (Int × Int) × List PinEntry × List Move
  | [], _, wk, bk, pins, moves => (wk, bk, pins, moves)
  | rc :: rest, ctx, wk, bk, pins, moves =>
    let cur := { ctx with white_king_location := wk, black_king_location := bk }
    let cell := getSq cur.board rc.1 rc.2
    let turn := charAt cell 0
    if (turn = 'w' ∧ cur.white_to_move) ∨ (turn = 'b' ∧ ¬cur.white_to_move) then
      let piece := charAt cell 1
      if piece = 'P' then
        let r := get_pawn_moves cur pins rc.1 rc.2 moves
        allMovesLoop rest ctx wk bk r.1 r.2
      else if piece = 'R' then
        let r := get_rook_moves cur pins rc.1 rc.2 moves
        allMovesLoop rest ctx wk bk r.1 r.2
      else if piece = 'N' then
        let r := get_knight_moves cur pins rc.1 rc.2 moves
        allMovesLoop rest ctx wk bk r.1 r.2
      else if piece = 'B' then
        let r := get_bishop_moves cur pins rc.1 rc.2 moves
        allMovesLoop rest ctx wk bk r.1 r.2
      else if piece = 'Q' then
        let r := get_queen_moves cur pins rc.1 rc.2 moves
        allMovesLoop rest ctx wk bk r.1 r.2
      else if piece = 'K' then
        let r := get_king_moves cur rc.1 rc.2 moves
        allMovesLoop rest ctx r.1 r.2.1 pins r.2.2
      else allMovesLoop rest ctx wk bk pins moves  -- a KeyError in the source
    else allMovesLoop rest ctx wk bk pins moves

/-- `GameState.get_all_possible_moves`. -/
def get_all_possible_moves (ctx : Ctx) (pins : List PinEntry) :
    (Int × Int) × (Int × Int) × List PinEntry × List Move :=
  allMovesLoop squares64 ctx ctx.white_king_location ctx.black_king_location pins []

/-- `GameState.square_under_attack`: flip the turn, enumerate the
opponent's moves (threading `self.pins` and the king caches, which the
opponent's king generator may rewrite), flip the turn back — restoring
the flag's entry value, so no turn component is returned — and test
whether any move lands on `(row, col)`. -/
def square_under_attack (ctx : Ctx) (pins : List PinEntry) (row col : Int) :
    Bool × (Int × Int) × (Int × Int) × List PinEntry :=
  let r := get_all_possible_moves { ctx with white_to_move := !ctx.white_to_move } pins
  (r.2.2.2.any (fun m => m.end_row == row && m.end_col == col), r.1, r.2.1, r.2.2.1)

/-- `GameState.get_kingside_castle_moves`; the source's chained `and`
short-circuits, so the second attack query only runs when the first found
no attacker, and each query's mutations (pin consumption, cache rewrite)
carry into the next through the rebuilt view. -/
def get_kingside_castle_moves (ctx : Ctx) (pins : List PinEntry) (row col : Int)
    (moves : List Move) :
    (Int × Int) × (Int × Int) × List PinEntry × List Move :=
  if getSq ctx.board row (col + 1) = "--" ∧ getSq ctx.board row (col + 2) = "--" then
    let a1 := square_under_attack ctx pins row (col + 1)
    if a1.1 then (a1.2.1, a1.2.2.1, a1.2.2.2, moves)
    else
      let ctx1 := { ctx with white_king_location := a1.2.1, black_king_location := a1.2.2.1 }
      let a2 := square_under_attack ctx1 a1.2.2.2 row (col + 2)
      if a2.1 then (a2.2.1, a2.2.2.1, a2.2.2.2, moves)
      else (a2.2.1, a2.2.2.1, a2.2.2.2,
        moves ++ [mkMove (row, col) (row, col + 2) ctx.board false true])
  else (ctx.white_king_location, ctx.black_king_location, pins, moves)

/-- `GameState.get_queenside_castle_moves`. -/
def get_queenside_castle_moves (ctx : Ctx) (pins : List PinEntry) (row col : Int)
    (moves : List Move) :
    (Int × Int) × (Int × Int) × List PinEntry × List Move :=
  if getSq ctx.board row (col - 1) = "--" ∧ getSq ctx.board row (col - 2) = "--" ∧
      getSq ctx.board row (col - 3) = "--" then
    let a1 := square_under_attack ctx pins row (col - 1)
    if a1.1 then (a1.2.1, a1.2.2.1, a1.2.2.2, moves)
    else
      let ctx1 := { ctx with white_king_location := a1.2.1, black_king_location := a1.2.2.1 }
      let a2 := square_under_attack ctx1 a1.2.2.2 row (col - 2)
      if a2.1 then (a2.2.1, a2.2.2.1, a2.2.2.2, moves)
      else (a2.2.1, a2.2.2.1, a2.2.2.2,
        moves ++ [mkMove (row, col) (row, col - 2) ctx.board false true])
  else (ctx.white_king_location, ctx.black_king_location, pins, moves)

/-- `GameState.get_castle_moves`. -/
def get_castle_moves (ctx : Ctx) (cr : CastleRights) (pins : List PinEntry)
    (row col : Int) (moves : List Move) :
    (Int × Int) × (Int × Int) × List PinEntry × List Move :=
  let a := square_under_attack ctx pins row col
  if a.1 then (a.2.1, a.2.2.1, a.2.2.2, moves)
  else
    let ctxA := { ctx with white_king_location := a.2.1, black_king_location := a.2.2.1 }
    let ks :=
      if (ctxA.white_to_move ∧ cr.wks) ∨ (¬ctxA.white_to_move ∧ cr.bks) then
        get_kingside_castle_moves ctxA a.2.2.2 row col moves
      else (ctxA.white_king_location, ctxA.black_king_location, a.2.2.2, moves)
    let ctxK := { ctx with white_king_location := ks.1, black_king_location := ks.2.1 }
    if (ctxK.white_to_move ∧ cr.wqs) ∨ (¬ctxK.white_to_move ∧ cr.bqs) then
      get_queenside_castle_moves ctxK ks.2.2.1 row col ks.2.2.2
    else ks

/-- In `get_valid_moves`, the terminal-state branch tests
`self.in_check is True`.  `in_check` names a *method* of `GameState`
(the boolean the analyzer produced is stored as `self.is_in_check`), so
the attribute lookup yields a bound-method object and the identity
comparison with `True` is always false. -/
def in_check_attr_is_True : Bool := false

/-- The `for i in range(1, 8)` loop of `get_valid_moves` that collects the
squares between the king and a single sliding checker (checker square
included, loop broken there). -/
def validSquaresLoop (king_row king_col check_row check_col d2 d3 : Int) :
    List Int → List (Int × Int) → List (Int × Int)
  | [], acc => acc
  | i :: rest, acc =>
    let vs := (king_row + d2 * i, king_col + d3 * i)
    let acc' := acc ++ [vs]
    if vs.1 = check_row ∧ vs.2 = check_col then acc'
    else validSquaresLoop king_row king_col check_row check_col d2 d3 rest acc'

/-- `moves.remove(m)`: drop the first element that `Move.__eq__` equates
with `m` (identity-key comparison, not structural equality). -/
def eraseByID (m : Move) : List Move → List Move
  | [] => []
  | x :: xs => if moveEq x m then xs else x :: eraseByID m xs

/-- One step of the `for i in range(len(moves) - 1, -1, -1)` filter of
`get_valid_moves`, at index `n` of the current list. -/
def checkFilterGo (valid : List (Int × Int)) : Nat → List Move → List Move
  | 0, ms => ms
  | n + 1, ms =>
    let ms' :=
      match ms.get? n with
      | none => ms
      | some m =>
        if charAt m.piece_moved 1 ≠ 'K' then
          if ¬((m.end_row, m.end_col) ∈ valid) then eraseByID m ms else ms
        else ms
    checkFilterGo valid n ms'

/-- The downward removal loop of `get_valid_moves`: non-king moves that do
not land on a blocking square are removed. -/
def checkFilter (valid : List (Int × Int)) (ms : List Move) : List Move :=
  checkFilterGo valid ms.length ms

/-- The body of `GameState.get_valid_moves` over the fields it reads:
analyze (from the possibly stale caches), read the cached king square,
generate (the board scan's king dispatch can rewrite a stale cache to the
king's board square), append castling moves, and return
`(is_in_check, checks, wk, bk, leftover pins, moves)` where `(wk, bk)`
are the king-cache cells as the call leaves them. -/
def gvmGen (ctx : Ctx) (cr : CastleRights) :
    Bool × List PinEntry × (Int × Int) × (Int × Int) × List PinEntry × List Move :=
  let pc := check_for_pins_and_checks ctx
  let is_in_check := pc.1
  let pins0 := pc.2.1
  let checks0 := pc.2.2
  let king_row := if ctx.white_to_move then ctx.white_king_location.1
                  else ctx.black_king_location.1
  let king_col := if ctx.white_to_move then ctx.white_king_location.2
                  else ctx.black_king_location.2
  let gen : (Int × Int) × (Int × Int) × List PinEntry × List Move :=
    if is_in_check = true then
      if checks0.length = 1 then
        let r := get_all_possible_moves ctx pins0
        let check := checks0.getD 0 (0, 0, 0, 0)
        let check_row := check.1
        let check_col := check.2.1
        let piece_checking := getSq ctx.board check_row check_col
        let valid_squares :=
          if charAt piece_checking 1 = 'N' then [(check_row, check_col)]
          else validSquaresLoop king_row king_col check_row check_col
            check.2.2.1 check.2.2.2 oneTo7 []
        (r.1, r.2.1, r.2.2.1, checkFilter valid_squares r.2.2.2)
      else
        let k := get_king_moves ctx king_row king_col []
        (k.1, k.2.1, pins0, k.2.2)
    else get_all_possible_moves ctx pins0
  let ctxG := { ctx with white_king_location := gen.1, black_king_location := gen.2.1 }
  let cm := get_castle_moves ctxG cr gen.2.2.1 king_row king_col gen.2.2.2
  (is_in_check, checks0, cm.1, cm.2.1, cm.2.2.1, cm.2.2.2)

/-- `GameState.get_valid_moves`: returns the move list and the mutated
state.  Written back are the fields the call assigns: `is_in_check`,
`pins` (the leftovers after consumption), `checks`, the terminal flags
(through the dead `self.in_check is True` branch), and the cached king
locations, which the king generator may have rewritten to the kings'
board squares.  The board and the en-passant target have no write sites
in the generation, and the turn flag is flipped and flipped back inside
every `square_under_attack`, so those stay as they were. -/
def get_valid_moves (s : GameState) : List Move × GameState :=
  let r := gvmGen (ctxOf s) s.current_castling_rights
  let moves := r.2.2.2.2.2
  (moves,
    { s with
      is_in_check := r.1
      checks := r.2.1
      white_king_location := r.2.2.1
      black_king_location := r.2.2.2.1
      pins := r.2.2.2.2.1
      checkmate := if moves.length = 0 ∧ in_check_attr_is_True then true else s.checkmate
      stalemate := if moves.length = 0 ∧ ¬in_check_attr_is_True then true else s.stalemate })

/-- `GameState.in_check` (the method): attack test on the side-to-move
king's cached square; the pin list and the king caches are threaded
because the enumeration inside `square_under_attack` shares them. -/
def in_check (s : GameState) : Bool × (Int × Int) × (Int × Int) × List PinEntry :=
  if s.white_to_move then
    square_under_attack (ctxOf s) s.pins s.white_king_location.1 s.white_king_location.2
  else
    square_under_attack (ctxOf s) s.pins s.black_king_location.1 s.black_king_location.2

/-- `GameState.update_castle_rights`: the pure rights transition applied
by `make_move` (the source mutates `self.current_castling_rights`). -/
def update_castle_rights (cr : CastleRights) (move : Move) : CastleRights :=
  if move.piece_moved = "wK" then { cr with wks := false, wqs := false }
  else if move.piece_moved = "bK" then { cr with bks := false, bqs := false }
  else if move.piece_moved = "wR" then
    if move.start_row = 7 then
      if move.start_col = 0 then { cr with wqs := false }
      else if move.start_col = 7 then { cr with wks := false }
      else cr
    else cr
  else if move.piece_moved = "bR" then
    if move.start_row = 0 then
      if move.start_col = 0 then { cr with bqs := false }
      else if move.start_col = 7 then { cr with bks := false }
      else cr
    else cr
  else cr

/-- `GameState.make_move(move, human_turn)`.  On a promotion with
`human_turn` the source reads the replacement piece letter from standard
input; that console response is the explicit `promo_input` parameter
here (with `human_turn = False` the source always promotes to "Q"). -/
def make_move (s : GameState) (move : Move) (human_turn : Bool)
    (promo_input : String) : GameState :=
  let b1 := setSq s.board move.start_row move.start_col "--"
  let b2 := setSq b1 move.end_row move.end_col move.piece_moved
  let wtm : Bool := !s.white_to_move
  let wk := if move.piece_moved = "wK" then (move.end_row, move.end_col)
            else s.white_king_location
  let bk := if move.piece_moved = "bK" then (move.end_row, move.end_col)
            else s.black_king_location
  let b3 :=
    if move.is_en_passant_move then
      -- `self.white_to_move` was already flipped above, as in the source
      let direction : Int := if wtm then -1 else 1
      let row_of_captured_pawn := move.end_row + direction
      setSq (setSq (setSq b2 move.end_row move.end_col move.piece_moved)
        move.start_row move.start_col "--") row_of_captured_pawn move.end_col "--"
    else b2
  let ep : Option (Int × Int) :=
    if charAt move.piece_moved 1 = 'P' ∧ (move.start_row - move.end_row).natAbs = 2 then
      some ((move.start_row + move.end_row) / 2, move.start_col)
    else none
  let b4 :=
    if move.is_pawn_promotion then
      let promoted_piece := if human_turn then promo_input else "Q"
      setSq b3 move.end_row move.end_col
        (String.singleton (charAt move.piece_moved 0) ++ promoted_piece)
    else b3
  let b5 :=
    if move.castle then
      if move.end_col - move.start_col = 2 then
        setSq (setSq b4 move.end_row (move.end_col - 1)
          (getSq b4 move.end_row (move.end_col + 1))) move.end_row (move.end_col + 1) "--"
      else
        setSq (setSq b4 move.end_row (move.end_col + 1)
          (getSq b4 move.end_row (move.end_col - 2))) move.end_row (move.end_col - 2) "--"
    else b4
  let cr := update_castle_rights s.current_castling_rights move
  { s with
    board := b5
    move_log := s.move_log ++ [move]
    white_to_move := wtm
    white_king_location := wk
    black_king_location := bk
    en_passant_possible := ep
    current_castling_rights := cr
    castle_rights_log := s.castle_rights_log ++ [cr] }

/-- `GameState.undo_move`: no-op on an empty log; otherwise pops the last
move and reverses the board effects.  Two source behaviours preserved
verbatim: the cached king location is assigned the move's *end* square,
and `en_passant_possible` is not restored.  `castle_rights_log[-2]` uses
the wrapping read (`pyGet`); Python would raise on a log shorter than
one entry, which no reachable state produces. -/
def undo_move (s : GameState) : GameState :=
  match s.move_log.getLast? with
  | none => s
  | some move =>
    let b1 := setSq s.board move.start_row move.start_col move.piece_moved
    let b2 := setSq b1 move.end_row move.end_col move.piece_captured
    let wtm : Bool := !s.white_to_move
    let wk := if move.piece_moved = "wK" then (move.end_row, move.end_col)
              else s.white_king_location
    let bk := if move.piece_moved = "bK" then (move.end_row, move.end_col)
              else s.black_king_location
    let b3 :=
      if move.is_en_passant_move then
        let b := setSq (setSq b2 move.start_row move.start_col move.piece_moved)
          move.end_row move.end_col "--"
        let captured_pawn_row :=
          move.end_row + (if move.piece_moved = "wP" then 1 else -1)
        setSq b captured_pawn_row move.end_col
          (if move.piece_moved = "wP" then "bP" else "wP")
      else b2
    let b4 :=
      if move.castle then
        if move.end_col - move.start_col = 2 then
          setSq (setSq b3 move.end_row (move.end_col + 1)
            (getSq b3 move.end_row (move.end_col - 1))) move.end_row (move.end_col - 1) "--"
        else
          setSq (setSq b3 move.end_row (move.end_col - 2)
            (getSq b3 move.end_row (move.end_col + 1))) move.end_row (move.end_col + 1) "--"
      else b3
    let newRights := pyGet s.castle_rights_log ⟨true, true, true, true⟩
      ((s.castle_rights_log.length : Int) - 2)
    { s with
      board := b4
      move_log := s.move_log.dropLast
      white_to_move := wtm
      white_king_location := wk
      black_king_location := bk
      current_castling_rights :=
        ⟨newRights.wks, newRights.bks, newRights.wqs, newRights.bqs⟩
      castle_rights_log := s.castle_rights_log.dropLast }

/-- The score values of `movefinder.py`: board evaluations are integers,
while `float("inf")` / `-float("inf")` appear as loop sentinels and search
bounds.  No NaN ever arises (the only float arithmetic is comparison,
`max`/`min`, and multiplication by ±1). -/
inductive XInt where
  | ninf : XInt
  | fin (n : Int) : XInt
  | pinf : XInt
deriving DecidableEq, Repr

/-- `a <= b` on scores (IEEE comparison restricted to these values). -/
def xle : XInt → XInt → Bool
  | .ninf, _ => true
  | _, .pinf => true
  | .fin a, .fin b => a ≤ b
  | .pinf, _ => false
  | .fin _, .ninf => false

/-- `a < b` on scores. -/
def xlt (a b : XInt) : Bool := !xle b a

/-- Python `max(a, b)` (returns `b` only when it is strictly greater). -/
def xmax (a b : XInt) : XInt := if xlt a b then b else a

/-- Python `min(a, b)`. -/
def xmin (a b : XInt) : XInt := if xlt b a then b else a

/-- `score * turn_multiplier` where `turn_multiplier ∈ {1, -1}` (IEEE
sign handling on the infinities). -/
def xmulSign (a : XInt) (tm : Int) : XInt :=
  match a with
  | .fin n => .fin (n * tm)
  | .pinf => if 0 < tm then .pinf else .ninf
  | .ninf => if 0 < tm then .ninf else .pinf

/-- `PIECE_SCORE` of `find_best_move` (a `KeyError` for any other letter
is unreachable on well-formed boards). -/
def piece_score : Char → Int
  | 'K' => 100
  | 'Q' => 9
  | 'R' => 5
  | 'B' => 4
  | 'N' => 3
  | 'P' => 1
  | _ => 0

/-- `CHECKMATE_SCORE`. -/
def CHECKMATE_SCORE : Int := 1000

/-- `STALEMATE_SCORE`. -/
def STALEMATE_SCORE : Int := 0

/-- `score_board` (movefinder.py): terminal flags first, then the signed
material sum. -/
def score_board (s : GameState) : Int :=
  if s.checkmate then
    if s.white_to_move then -CHECKMATE_SCORE else CHECKMATE_SCORE
  else if s.stalemate then STALEMATE_SCORE
  else
    s.board.foldl
      (fun acc row =>
        row.foldl
          (fun acc piece =>
            if piece ≠ "--" then
              acc + (if charAt piece 0 = 'w' then 1 else -1) * piece_score (charAt piece 1)
            else acc)
          acc)
      0

/-- The maximizing-player loop of `minmax`: make, recurse (as the
minimizing player), undo, fold the score into `max_score` and `alpha`,
and break when `beta <= alpha`.  `rec` is the recursive call at
`depth - 1`. -/
def abLoopMax (rec : GameState → XInt → XInt → XInt × GameState)
    (promo : String) : List Move → GameState → XInt → XInt → XInt →
    XInt × GameState
  | [], s, max_score, _, _ => (max_score, s)
  | mv :: rest, s, max_score, alpha, beta =>
    let s1 := make_move s mv true promo
    let r := rec s1 alpha beta
    let s3 := undo_move r.2
    let max_score' := xmax max_score r.1
    let alpha' := xmax alpha r.1
    if xle beta alpha' then (max_score', s3)
    else abLoopMax rec promo rest s3 max_score' alpha' beta

/-- The minimizing-player loop of `minmax`. -/
def abLoopMin (rec : GameState → XInt → XInt → XInt × GameState)
    (promo : String) : List Move → GameState → XInt → XInt → XInt →
    XInt × GameState
  | [], s, min_score, _, _ => (min_score, s)
  | mv :: rest, s, min_score, alpha, beta =>
    let s1 := make_move s mv true promo
    let r := rec s1 alpha beta
    let s3 := undo_move r.2
    let min_score' := xmin min_score r.1
    let beta' := xmin beta r.1
    if xle beta' alpha then (min_score', s3)
    else abLoopMin rec promo rest s3 min_score' alpha beta'

/-- `minmax` (movefinder.py): depth-limited alpha-beta search.  Every
`make_move` inside the search runs with the source's default
`human_turn=True`; `promo` is the console answer such a call would read
on a promotion (irrelevant whenever the explored tree contains no
promotion).  The state is threaded because `get_valid_moves`, `make_move`
and `undo_move` all mutate the shared `GameState`. -/
def minmax : Nat → GameState → Bool → XInt → XInt → String →
    XInt × GameState
  | 0, s, _, _, _, _ => (.fin (score_board s), s)
  | d + 1, s, maximizing_player, alpha, beta, promo =>
    if s.checkmate || s.stalemate then (.fin (score_board s), s)
    else
      let gv := get_valid_moves s
      if maximizing_player then
        abLoopMax (fun s1 a b => minmax d s1 false a b promo) promo gv.1 gv.2
          .ninf alpha beta
      else
        abLoopMin (fun s1 a b => minmax d s1 true a b promo) promo gv.1 gv.2
          .pinf alpha beta

/-- The maximizing loop with the `if beta <= alpha: break` cut-off
removed — the comparison recursion of the spec's pruning-equivalence
statement.  Everything else is identical to `abLoopMax`. -/
def abLoopMaxNP (rec : GameState → XInt → XInt → XInt × GameState)
    (promo : String) : List Move → GameState → XInt → XInt → XInt →
    XInt × GameState
  | [], s, max_score, _, _ => (max_score, s)
  | mv :: rest, s, max_score, alpha, beta =>
    let s1 := make_move s mv true promo
    let r := rec s1 alpha beta
    let s3 := undo_move r.2
    let max_score' := xmax max_score r.1
    let alpha' := xmax alpha r.1
    abLoopMaxNP rec promo rest s3 max_score' alpha' beta

/-- The minimizing loop with the cut-off removed. -/
def abLoopMinNP (rec : GameState → XInt → XInt → XInt × GameState)
    (promo : String) : List Move → GameState → XInt → XInt → XInt →
    XInt × GameState
  | [], s, min_score, _, _ => (min_score, s)
  | mv :: rest, s, min_score, alpha, beta =>
    let s1 := make_move s mv true promo
    let r := rec s1 alpha beta
    let s3 := undo_move r.2
    let min_score' := xmin min_score r.1
    let beta' := xmin beta r.1
    abLoopMinNP rec promo rest s3 min_score' alpha beta'

/-- `minmax` with the alpha-beta cut-off removed and nothing else changed:
the reference recursion of the pruning-equivalence claim. -/
def minmax_no_prune : Nat → GameState → Bool → XInt → XInt → String →
    XInt × GameState
  | 0, s, _, _, _, _ => (.fin (score_board s), s)
  | d + 1, s, maximizing_player, alpha, beta, promo =>
    if s.checkmate || s.stalemate then (.fin (score_board s), s)
    else
      let gv := get_valid_moves s
      if maximizing_player then
        abLoopMaxNP (fun s1 a b => minmax_no_prune d s1 false a b promo) promo
          gv.1 gv.2 .ninf alpha beta
      else
        abLoopMinNP (fun s1 a b => minmax_no_prune d s1 true a b promo) promo
          gv.1 gv.2 .pinf alpha beta

/-- The candidate loop of `find_best_move`: apply, evaluate with
`minmax(state, depth - 1, not state.white_to_move, -inf, +inf)`, undo,
and keep the move whose `score * turn_multiplier` is strictly below the
running `max_evaluated_score` (initially `+inf`). -/
def fbLoop (dm1 : Nat) (promo : String) (tm : Int) : List Move → GameState →
    XInt → Option Move → Option Move × GameState
  | [], s, _, best => (best, s)
  | mv :: rest, s, max_evaluated_score, best =>
    let s1 := make_move s mv true promo
    let r := minmax dm1 s1 (!s1.white_to_move) .ninf .pinf promo
    let s3 := undo_move r.2
    if xlt (xmulSign r.1 tm) max_evaluated_score then
      fbLoop dm1 promo tm rest s3 (xmulSign r.1 tm) (some mv)
    else fbLoop dm1 promo tm rest s3 max_evaluated_score best

/-- `find_best_move(gamestate, valid_moves, depth)`: `none` models the
`UnboundLocalError` Python raises when `valid_moves` is empty (the
variable `best_move` is never assigned). -/
def find_best_move (s : GameState) (valid_moves : List Move) (depth : Nat)
    (promo : String) : Option Move × GameState :=
  let turn_multiplier : Int := if s.white_to_move then 1 else -1
  fbLoop (depth - 1) promo turn_multiplier valid_moves s .pinf none

/-! Concrete positions used by the claims. -/

/-- An all-empty board, for building test positions. -/
def emptyBoard : Board :=
  (List.range 8).map (fun _ => (List.range 8).map (fun _ => "--"))

/-- Place pieces `(row, col, piece)` on an empty board. -/
def placeAll (ps : List (Int × Int × String)) : Board :=
  ps.foldl (fun b p => setSq b p.1 p.2.1 p.2.2) emptyBoard

/-- White's double pawn push e2e4 (`(6,4) → (4,4)`), built the way the
callers build moves: from coordinates and the current board. -/
def mv_e2e4 : Move := mkMove (6, 4) (4, 4) initialGameState.board false false

/-- Position after 1. e4. -/
def st_afterE4 : GameState := make_move initialGameState mv_e2e4 true "Q"

/-- Black's reply e7e5. -/
def mv_e7e5 : Move := mkMove (1, 4) (3, 4) st_afterE4.board false false

/-- Position after 1. e4 e5. -/
def st_afterE4E5 : GameState := make_move st_afterE4 mv_e7e5 true "Q"

/-- White's king step Ke1–e2 (`(7,4) → (6,4)`), legal after 1. e4 e5. -/
def mv_Ke1e2 : Move := mkMove (7, 4) (6, 4) st_afterE4E5.board false false

/-- 1. f3 (`(6,5) → (5,5)`). -/
def fm_mv1 : Move := mkMove (6, 5) (5, 5) initialGameState.board false false

/-- Position after 1. f3. -/
def fm_st1 : GameState := make_move initialGameState fm_mv1 true "Q"

/-- 1... e5. -/
def fm_mv2 : Move := mkMove (1, 4) (3, 4) fm_st1.board false false

/-- Position after 1. f3 e5. -/
def fm_st2 : GameState := make_move fm_st1 fm_mv2 true "Q"

/-- 2. g4. -/
def fm_mv3 : Move := mkMove (6, 6) (4, 6) fm_st2.board false false

/-- Position after 1. f3 e5 2. g4. -/
def fm_st3 : GameState := make_move fm_st2 fm_mv3 true "Q"

/-- 2... Qh4 (`(0,3) → (4,7)`). -/
def fm_mv4 : Move := mkMove (0, 3) (4, 7) fm_st3.board false false

/-- The fool's-mate position after 1. f3 e5 2. g4 Qh4: white to move and
mated. -/
def fm_st4 : GameState := make_move fm_st3 fm_mv4 true "Q"

/-- White Ka1 and Ra5 versus black Kh8 and Qh5, white to move: the rook's
capture of the queen on h5 is the unique capture available. -/
def c3_state : GameState :=
  { board := placeAll [(7, 0, "wK"), (3, 0, "wR"), (0, 7, "bK"), (3, 7, "bQ")]
    white_to_move := true
    move_log := []
    white_king_location := (7, 0)
    black_king_location := (0, 7)
    checkmate := false
    stalemate := false
    pins := []
    checks := []
    is_in_check := false
    en_passant_possible := none
    current_castling_rights := ⟨false, false, false, false⟩
    castle_rights_log := [⟨false, false, false, false⟩] }

/-- The winning capture Ra5xh5. -/
def c3_capture : Move := mkMove (3, 0) (3, 7) c3_state.board false false

/-- The quiet rook move Ra5–a6 (the first generated candidate). -/
def c3_quiet : Move := mkMove (3, 0) (2, 0) c3_state.board false false

/-- White Kh1, Rb6, Rd6 versus black Ka8 and Pg7, white to move, nobody in
check: a position on which pruning changes the value `minmax` returns. -/
def c4_state : GameState :=
  { board := placeAll
      [(7, 7, "wK"), (2, 1, "wR"), (2, 3, "wR"), (0, 0, "bK"), (1, 6, "bP")]
    white_to_move := true
    move_log := []
    white_king_location := (7, 7)
    black_king_location := (0, 0)
    checkmate := false
    stalemate := false
    pins := []
    checks := []
    is_in_check := false
    en_passant_possible := none
    current_castling_rights := ⟨false, false, false, false⟩
    castle_rights_log := [⟨false, false, false, false⟩] }

/-- White Ka1 and Rh4 versus a black Ra8, white to move, with a *stale*
white-king cache still pointing at h1: the position `undo_move`'s
king-cache bug leaves behind after a king move is undone. -/
def c5_state : GameState :=
  { board := placeAll [(7, 0, "wK"), (4, 7, "wR"), (0, 0, "bR")]
    white_to_move := true
    move_log := []
    white_king_location := (7, 7)
    black_king_location := (0, 0)
    checkmate := false
    stalemate := false
    pins := []
    checks := []
    is_in_check := false
    en_passant_possible := none
    current_castling_rights := ⟨false, false, false, false⟩
    castle_rights_log := [⟨false, false, false, false⟩] }

/-! The claims. -/

set_option maxRecDepth 100000 in
set_option maxHeartbeats 1000000 in
/-- C8: on the freshly constructed initial `GameState`, `get_valid_moves`
returns a list of exactly 20 moves. -/
theorem C8_initial_position_twenty_moves :
    (get_valid_moves initialGameState).1.length = 20 := by
  decide

/-- C9: `undo_move` on a state whose move log is empty is a no-op: the
state is returned unchanged and nothing fails. -/
theorem C9_undo_on_empty_log_is_noop (s : GameState) (h : s.move_log = []) :
    undo_move s = s := by
  unfold undo_move
  rw [h]
  rfl

theorem C9_undo_on_empty_log_is_noop_witness :
    undo_move initialGameState = initialGameState :=
  C9_undo_on_empty_log_is_noop initialGameState rfl

/-- Besides the pins, the checks, the terminal flags and the king caches,
`get_valid_moves` leaves the state as it was: the board and the
en-passant target have no write sites in the generation, the turn flips
of `square_under_attack` are undone in place, and the castling rights are
only read. -/
lemma get_valid_moves_preserves_core (s : GameState) :
    (get_valid_moves s).2.board = s.board ∧
    (get_valid_moves s).2.white_to_move = s.white_to_move ∧
    (get_valid_moves s).2.en_passant_possible = s.en_passant_possible ∧
    (get_valid_moves s).2.current_castling_rights = s.current_castling_rights :=
  ⟨rfl, rfl, rfl, rfl⟩

set_option maxRecDepth 100000 in
set_option maxHeartbeats 1000000 in
/-- C5 as stated fails on the code: on a state whose cached white-king
location is stale (here h1, while the king sits on a1 — the situation the
`undo_move` king-cache bug produces), the first `get_valid_moves` call
analyzes from the phantom square h1, sees no check, and returns 16 moves,
but the board scan's king dispatch rewrites the cache to a1 mid-call; the
second call then sees the a8-rook's check and returns only the 3 moves
that answer it.  The pin list is indeed recomputed each call — it is the
king-cache write, not pin consumption, that breaks the round trip. -/
theorem C5_get_valid_moves_not_idempotent_on_stale_cache :
    c5_state.white_king_location = (7, 7) ∧
    getSq c5_state.board 7 0 = "wK" ∧
    (get_valid_moves c5_state).2.white_king_location = (7, 0) ∧
    (get_valid_moves c5_state).1.length = 16 ∧
    (get_valid_moves ((get_valid_moves c5_state).2)).1.length = 3 ∧
    (get_valid_moves ((get_valid_moves c5_state).2)).1 ≠ (get_valid_moves c5_state).1 := by
  refine ⟨rfl, rfl, by decide, by decide, by decide, by decide⟩

/-- C5, amended: calling `get_valid_moves` twice in succession, with no
`make_move` or `undo_move` in between, returns equal move lists whenever
the first call leaves the cached king locations unchanged — in
particular on every state whose caches agree with the kings' board
squares, where the generator's cache write stores back the value already
present.  The pin list consumed during generation is recomputed from
scratch by `check_for_pins_and_checks` at the start of every call, and
every other field the generation reads (board, side to move, en-passant
target, castling rights) is untouched by the first call. -/
theorem C5_get_valid_moves_idempotent_of_stable_cache (s : GameState)
    (h1 : (get_valid_moves s).2.white_king_location = s.white_king_location)
    (h2 : (get_valid_moves s).2.black_king_location = s.black_king_location) :
    (get_valid_moves ((get_valid_moves s).2)).1 = (get_valid_moves s).1 := by
  have hcore := get_valid_moves_preserves_core s
  have hctx : ctxOf ((get_valid_moves s).2) = ctxOf s := by
    unfold ctxOf
    rw [hcore.1, hcore.2.1, hcore.2.2.1, h1, h2]
  show (gvmGen (ctxOf ((get_valid_moves s).2))
    ((get_valid_moves s).2).current_castling_rights).2.2.2.2.2 = _
  rw [hctx, hcore.2.2.2]
  rfl

set_option maxRecDepth 100000 in
set_option maxHeartbeats 1000000 in
theorem C5_get_valid_moves_idempotent_of_stable_cache_witness :
    (get_valid_moves initialGameState).2.white_king_location =
      initialGameState.white_king_location ∧
    (get_valid_moves initialGameState).2.black_king_location =
      initialGameState.black_king_location ∧
    (get_valid_moves ((get_valid_moves initialGameState).2)).1 =
      (get_valid_moves initialGameState).1 := by
  have h1 : (get_valid_moves initialGameState).2.white_king_location =
      initialGameState.white_king_location := by decide
  have h2 : (get_valid_moves initialGameState).2.black_king_location =
      initialGameState.black_king_location := by decide
  exact ⟨h1, h2, C5_get_valid_moves_idempotent_of_stable_cache initialGameState h1 h2⟩

set_option maxRecDepth 100000 in
set_option maxHeartbeats 1000000 in
/-- C1 fails on the code: for the legal double push e2e4 from the initial
position, `make_move` then `undo_move` leaves the en-passant target set to
(5,4) instead of restoring the empty pre-move value; and for the legal
king step Ke1–e2 after 1. e4 e5, the round trip leaves the cached white
king location at the move's end square (6,4) instead of (7,4). -/
theorem C1_roundtrip_violation :
    mv_e2e4 ∈ (get_valid_moves initialGameState).1 ∧
    initialGameState.en_passant_possible = none ∧
    (undo_move (make_move initialGameState mv_e2e4 true "Q")).en_passant_possible
      = some (5, 4) ∧
    mv_Ke1e2 ∈ (get_valid_moves st_afterE4E5).1 ∧
    st_afterE4E5.white_king_location = (7, 4) ∧
    (undo_move (make_move st_afterE4E5 mv_Ke1e2 true "Q")).white_king_location
      = (6, 4) := by
  refine ⟨by decide, rfl, by decide, by decide, by decide, by decide⟩

set_option maxRecDepth 1000000 in
set_option maxHeartbeats 4000000 in
/-- C2 fails on the code: after the legal sequence f2f3, e7e5, g2g4, d8h4
from the initial position, the side to move is in check and has no legal
moves, yet `get_valid_moves` leaves `checkmate` false and sets `stalemate`
instead — its terminal branch tests `self.in_check is True`, which
compares a bound method against `True` and is always false. -/
theorem C2_foolsmate_sets_stalemate_not_checkmate :
    fm_mv1 ∈ (get_valid_moves initialGameState).1 ∧
    fm_mv2 ∈ (get_valid_moves fm_st1).1 ∧
    fm_mv3 ∈ (get_valid_moves fm_st2).1 ∧
    fm_mv4 ∈ (get_valid_moves fm_st3).1 ∧
    (get_valid_moves fm_st4).1 = [] ∧
    (in_check fm_st4).1 = true ∧
    (get_valid_moves fm_st4).2.is_in_check = true ∧
    (get_valid_moves fm_st4).2.checkmate = false ∧
    (get_valid_moves fm_st4).2.stalemate = true := by
  refine ⟨by decide, by decide, by decide, by decide, by decide, by decide,
    by decide, by decide, by decide⟩

set_option maxRecDepth 1000000 in
set_option maxHeartbeats 4000000 in
/-- C3 fails on the code: in `c3_state` the rook's capture of the hanging
black queen is the unique capture among the legal moves and, under the
material evaluator, the unique best move for white, yet `find_best_move`
at depth 1 returns the first quiet rook move — its running comparison
`score * turn_multiplier < max_evaluated_score` (starting from +inf)
selects the candidate whose score is worst for the side to move. -/
theorem C3_find_best_move_rejects_winning_capture :
    c3_capture ∈ (get_valid_moves c3_state).1 ∧
    (get_valid_moves c3_state).1.filter (fun m => m.piece_captured ≠ "--")
      = [c3_capture] ∧
    c3_capture.piece_captured = "bQ" ∧
    c3_quiet.piece_captured = "--" ∧
    c3_quiet ≠ c3_capture ∧
    (find_best_move (get_valid_moves c3_state).2 (get_valid_moves c3_state).1
      1 "Q").1 = some c3_quiet := by
  refine ⟨by decide, by decide, by decide, by decide, by decide, by decide⟩

set_option maxRecDepth 1000000 in
set_option maxHeartbeats 4000000 in
/-- C4 fails on the code: on `c4_state` at depth 2 (maximizing, full
window), `minmax` with the alpha-beta cut-off returns +inf while the
identical recursion without the cut-off returns 9.  Pruning skips
make/undo pairs, `undo_move` leaves the cached king location at the
undone move's end square, and `get_valid_moves` both reads that cache and
latches the stalemate flag, so the two runs evaluate later siblings on
different states. -/
theorem C4_pruning_changes_minmax_value :
    (minmax 2 c4_state true XInt.ninf XInt.pinf "Q").1 = XInt.pinf ∧
    (minmax_no_prune 2 c4_state true XInt.ninf XInt.pinf "Q").1 = XInt.fin 9 ∧
    (minmax 2 c4_state true XInt.ninf XInt.pinf "Q").1 ≠
      (minmax_no_prune 2 c4_state true XInt.ninf XInt.pinf "Q").1 := by
  refine ⟨by decide, by decide, by decide⟩

/-- C6: two `Move` values built from board coordinates compare equal
under `Move.__eq__` exactly when their four coordinates coincide; the
boards and the en-passant/castle constructor flags (and hence the captured
piece and promotion flag derived from them) play no role, because the
identity key `start_row*1000 + start_col*100 + end_row*10 + end_col` is
injective on coordinates in 0..7. -/
theorem C6_move_equality_iff_coordinates
    (s1 e1 s2 e2 : Int × Int) (b1 b2 : Board) (p1 c1 p2 c2 : Bool)
    (h1 : 0 ≤ s1.1 ∧ s1.1 < 8) (h2 : 0 ≤ s1.2 ∧ s1.2 < 8)
    (h3 : 0 ≤ e1.1 ∧ e1.1 < 8) (h4 : 0 ≤ e1.2 ∧ e1.2 < 8)
    (h5 : 0 ≤ s2.1 ∧ s2.1 < 8) (h6 : 0 ≤ s2.2 ∧ s2.2 < 8)
    (h7 : 0 ≤ e2.1 ∧ e2.1 < 8) (h8 : 0 ≤ e2.2 ∧ e2.2 < 8) :
    moveEq (mkMove s1 e1 b1 p1 c1) (mkMove s2 e2 b2 p2 c2) = true ↔
      (s1 = s2 ∧ e1 = e2) := by
  simp only [moveEq, mkMove, beq_iff_eq, Prod.ext_iff]
  omega

theorem C6_move_equality_iff_coordinates_witness :
    ((0 : Int) ≤ 1 ∧ (1 : Int) < 8) ∧ ((0 : Int) ≤ 2 ∧ (2 : Int) < 8) ∧
    ((0 : Int) ≤ 3 ∧ (3 : Int) < 8) ∧ ((0 : Int) ≤ 4 ∧ (4 : Int) < 8) ∧
    (moveEq (mkMove (1, 2) (3, 4) initial_board true false)
        (mkMove (1, 2) (3, 4) emptyBoard false true) = true ↔
      ((1, 2) : Int × Int) = (1, 2) ∧ ((3, 4) : Int × Int) = (3, 4)) :=
  ⟨by decide, by decide, by decide, by decide,
    C6_move_equality_iff_coordinates (1, 2) (3, 4) (1, 2) (3, 4)
      initial_board emptyBoard true false false true
      (by decide) (by decide) (by decide) (by decide)
      (by decide) (by decide) (by decide) (by decide)⟩

/-- Reading the element `castle_rights_log[-2]` of a log that just grew by
one snapshot yields the previous last snapshot. -/
lemma pyGet_concat_penult {α : Type} (L : List α) (x d : α) (h : L ≠ []) :
    pyGet (L ++ [x]) d (((L ++ [x]).length : Int) - 2) = L.getLast?.getD d := by
  have hpos : 0 < L.length := List.length_pos.mpr h
  unfold pyGet
  have hlen : (L ++ [x]).length = L.length + 1 := by simp
  rw [hlen]
  have hnn : ¬ (((L.length + 1 : Nat) : Int) - 2 < 0) := by push_cast; omega
  rw [if_neg hnn, if_neg hnn]
  have htn : (((L.length + 1 : Nat) : Int) - 2).toNat = L.length - 1 := by
    push_cast
    omega
  rw [htn, List.getD_append _ _ _ _ (by omega), List.getD_eq_getElem?_getD,
    List.getLast?_eq_getElem?]

/-- `make_move` stores `update_castle_rights` of the previous rights. -/
lemma make_move_rights (s : GameState) (m : Move) (ht : Bool) (pi : String) :
    (make_move s m ht pi).current_castling_rights =
      update_castle_rights s.current_castling_rights m := rfl

/-- `make_move` appends the updated rights snapshot to the log. -/
lemma make_move_rights_log (s : GameState) (m : Move) (ht : Bool) (pi : String) :
    (make_move s m ht pi).castle_rights_log =
      s.castle_rights_log ++ [update_castle_rights s.current_castling_rights m] := rfl

/-- `make_move` appends the move to the move log. -/
lemma make_move_move_log (s : GameState) (m : Move) (ht : Bool) (pi : String) :
    (make_move s m ht pi).move_log = s.move_log ++ [m] := rfl

/-- `update_castle_rights` never raises a cleared flag. -/
lemma update_castle_rights_mono (cr : CastleRights) (m : Move) :
    ((update_castle_rights cr m).wks = true → cr.wks = true) ∧
    ((update_castle_rights cr m).wqs = true → cr.wqs = true) ∧
    ((update_castle_rights cr m).bks = true → cr.bks = true) ∧
    ((update_castle_rights cr m).bqs = true → cr.bqs = true) := by
  unfold update_castle_rights
  split_ifs <;> simp_all

/-- `update_castle_rights` clears the flags of a moving king, and the
matching side's flag when a rook leaves its home square. -/
lemma update_castle_rights_clears (cr : CastleRights) (m : Move) :
    (m.piece_moved = "wK" →
      (update_castle_rights cr m).wks = false ∧
        (update_castle_rights cr m).wqs = false) ∧
    (m.piece_moved = "bK" →
      (update_castle_rights cr m).bks = false ∧
        (update_castle_rights cr m).bqs = false) ∧
    (m.piece_moved = "wR" ∧ m.start_row = 7 ∧ m.start_col = 0 →
      (update_castle_rights cr m).wqs = false) ∧
    (m.piece_moved = "wR" ∧ m.start_row = 7 ∧ m.start_col = 7 →
      (update_castle_rights cr m).wks = false) ∧
    (m.piece_moved = "bR" ∧ m.start_row = 0 ∧ m.start_col = 0 →
      (update_castle_rights cr m).bqs = false) ∧
    (m.piece_moved = "bR" ∧ m.start_row = 0 ∧ m.start_col = 7 →
      (update_castle_rights cr m).bks = false) := by
  unfold update_castle_rights
  split_ifs <;> simp_all

/-- `undo_move` after `make_move` restores the castling rights and their
log, provided the log was nonempty with its last snapshot equal to the
current rights (the invariant every reachable state satisfies). -/
lemma undo_make_restores_rights (s : GameState) (m : Move) (ht : Bool) (pi : String)
    (h1 : s.castle_rights_log ≠ [])
    (h2 : s.castle_rights_log.getLast? = some s.current_castling_rights) :
    (undo_move (make_move s m ht pi)).current_castling_rights =
        s.current_castling_rights ∧
    (undo_move (make_move s m ht pi)).castle_rights_log = s.castle_rights_log := by
  unfold undo_move
  rw [make_move_move_log, List.getLast?_concat]
  simp only []
  rw [make_move_rights_log]
  constructor
  · have := pyGet_concat_penult s.castle_rights_log
      (update_castle_rights s.current_castling_rights m)
      (⟨true, true, true, true⟩ : CastleRights) h1
    simp only [List.length_append, List.length_cons, List.length_nil] at this ⊢
    rw [this, h2]
    rfl
  · exact List.dropLast_concat ..

/-- C7: across any `make_move`, each of the four castling flags is
monotonically non-increasing (first group); a flag is cleared when its
king moves or when the corresponding rook moves from its home square
(second group); and on a state satisfying the reachable-state log
invariant, `undo_move` restores the rights and the log to their exact
pre-move values from the snapshot log rather than recomputing them
(third group). -/
theorem C7_castling_rights_monotone_and_restored
    (s : GameState) (m : Move) (ht : Bool) (pi : String)
    (h1 : s.castle_rights_log ≠ [])
    (h2 : s.castle_rights_log.getLast? = some s.current_castling_rights) :
    (((make_move s m ht pi).current_castling_rights.wks = true →
        s.current_castling_rights.wks = true) ∧
      ((make_move s m ht pi).current_castling_rights.wqs = true →
        s.current_castling_rights.wqs = true) ∧
      ((make_move s m ht pi).current_castling_rights.bks = true →
        s.current_castling_rights.bks = true) ∧
      ((make_move s m ht pi).current_castling_rights.bqs = true →
        s.current_castling_rights.bqs = true)) ∧
    ((m.piece_moved = "wK" →
        (make_move s m ht pi).current_castling_rights.wks = false ∧
          (make_move s m ht pi).current_castling_rights.wqs = false) ∧
      (m.piece_moved = "bK" →
        (make_move s m ht pi).current_castling_rights.bks = false ∧
          (make_move s m ht pi).current_castling_rights.bqs = false) ∧
      (m.piece_moved = "wR" ∧ m.start_row = 7 ∧ m.start_col = 0 →
        (make_move s m ht pi).current_castling_rights.wqs = false) ∧
      (m.piece_moved = "wR" ∧ m.start_row = 7 ∧ m.start_col = 7 →
        (make_move s m ht pi).current_castling_rights.wks = false) ∧
      (m.piece_moved = "bR" ∧ m.start_row = 0 ∧ m.start_col = 0 →
        (make_move s m ht pi).current_castling_rights.bqs = false) ∧
      (m.piece_moved = "bR" ∧ m.start_row = 0 ∧ m.start_col = 7 →
        (make_move s m ht pi).current_castling_rights.bks = false)) ∧
    ((undo_move (make_move s m ht pi)).current_castling_rights =
        s.current_castling_rights ∧
      (undo_move (make_move s m ht pi)).castle_rights_log =
        s.castle_rights_log) := by
  refine ⟨?_, ?_, undo_make_restores_rights s m ht pi h1 h2⟩
  · simp only [make_move_rights]
    exact update_castle_rights_mono s.current_castling_rights m
  · simp only [make_move_rights]
    exact update_castle_rights_clears s.current_castling_rights m

theorem C7_castling_rights_monotone_and_restored_witness :
    initialGameState.castle_rights_log ≠ [] ∧
    initialGameState.castle_rights_log.getLast? =
      some initialGameState.current_castling_rights ∧
    (undo_move (make_move initialGameState mv_e2e4 true "Q")).current_castling_rights
      = initialGameState.current_castling_rights ∧
    (undo_move (make_move initialGameState mv_e2e4 true "Q")).castle_rights_log
      = initialGameState.castle_rights_log := by
  have h := C7_castling_rights_monotone_and_restored initialGameState mv_e2e4
    true "Q" (by decide) rfl
  exact ⟨by decide, rfl, h.2.2.1, h.2.2.2⟩

/-- A state whose terminal flags are latched, for the C10 witness. -/
def terminal_flag_state : GameState :=
  { initialGameState with checkmate := true, stalemate := true }

set_option maxHeartbeats 1000000 in
/-- C10: the terminal flags are never reset by the engine operations:
`make_move` and `undo_move` leave both flags exactly as they are,
`get_valid_moves` leaves `checkmate` unchanged (its only assignment sits
under the dead `self.in_check is True` test) and only ever raises
`stalemate`, and `score_board` on a state whose `checkmate` flag is set
still reports the mate score. -/
theorem C10_terminal_flags_never_reset (s : GameState) (m : Move) (ht : Bool)
    (pi : String) :
    (make_move s m ht pi).checkmate = s.checkmate ∧
    (make_move s m ht pi).stalemate = s.stalemate ∧
    (undo_move s).checkmate = s.checkmate ∧
    (undo_move s).stalemate = s.stalemate ∧
    (get_valid_moves s).2.checkmate = s.checkmate ∧
    (s.stalemate = true → (get_valid_moves s).2.stalemate = true) ∧
    (s.checkmate = true →
      score_board s = if s.white_to_move then -CHECKMATE_SCORE else CHECKMATE_SCORE) := by
  refine ⟨rfl, rfl, ?_, ?_, ?_, ?_, ?_⟩
  · unfold undo_move
    split <;> rfl
  · unfold undo_move
    split <;> rfl
  · simp [get_valid_moves, in_check_attr_is_True]
  · intro h
    simp [get_valid_moves, in_check_attr_is_True, h]
  · intro h
    simp [score_board, h]

theorem C10_terminal_flags_never_reset_witness :
    terminal_flag_state.checkmate = true ∧
    terminal_flag_state.stalemate = true ∧
    (make_move terminal_flag_state mv_e2e4 true "Q").checkmate = true ∧
    (undo_move terminal_flag_state).checkmate = true ∧
    (get_valid_moves terminal_flag_state).2.stalemate = true ∧
    score_board terminal_flag_state = -1000 := by
  have h := C10_terminal_flags_never_reset terminal_flag_state mv_e2e4 true "Q"
  refine ⟨rfl, rfl, ?_, ?_, h.2.2.2.2.2.1 rfl, ?_⟩
  · rw [h.1]
    rfl
  · rw [h.2.2.1]
    rfl
  · have h7 := h.2.2.2.2.2.2 rfl
    simpa [CHECKMATE_SCORE] using h7

end Chess
